import Mathlib

/-!
Verification of the grid-layout and label-placement logic of
`src/july/helpers.py` (the `july` calendar-heatmap library).

The grid builder `date_grid` and the label-placement routines depend on
Python's `datetime.date.isocalendar`.  We embed CPython's
proleptic-Gregorian calendar arithmetic (`_is_leap`, `_days_before_year`,
`_days_before_month`, `_ymd2ord`, `_isoweek1monday`, `date.isocalendar`)
faithfully, over `Int` with Lean's `/` and `%` (Euclidean division, which
agrees with Python's floor division for the positive divisors used here).
-/

/-- A Python `datetime.date` value: a (year, month, day) triple.  The
`datetime.date` constructor validates the ranges; that validation is
captured by `Date.isValid` below. -/
structure Date where
  year : Int
  month : Int
  day : Int
deriving DecidableEq, Repr

/-- CPython `_is_leap(year)`: `year % 4 == 0 and (year % 100 != 0 or year % 400 == 0)`. -/
def isLeap (y : Int) : Bool :=
  y % 4 == 0 && (y % 100 != 0 || y % 400 == 0)

/-- The extra day of a leap year: 1 on leap years, 0 otherwise. -/
def leapDay (y : Int) : Int := if isLeap y then 1 else 0

/-- CPython `_days_in_month(year, month)`: the `_DAYS_IN_MONTH` table
plus the February leap rule. -/
def daysInMonth (y m : Int) : Int :=
  if m = 2 then 28 + leapDay y
  else if m = 4 ∨ m = 6 ∨ m = 9 ∨ m = 11 then 30
  else 31

/-- CPython `_DAYS_BEFORE_MONTH` table: cumulative days before month `m`
in a non-leap year. -/
def daysBeforeMonthTable (m : Int) : Int :=
  if m ≤ 1 then 0 else if m = 2 then 31 else if m = 3 then 59 else if m = 4 then 90
  else if m = 5 then 120 else if m = 6 then 151 else if m = 7 then 181 else if m = 8 then 212
  else if m = 9 then 243 else if m = 10 then 273 else if m = 11 then 304 else 334

/-- CPython `_days_before_month(year, month)`. -/
def daysBeforeMonth (y m : Int) : Int :=
  daysBeforeMonthTable m + (if 2 < m then leapDay y else 0)

/-- CPython `_days_before_year(year)`: days before January 1st of `year`. -/
def daysBeforeYear (y : Int) : Int :=
  365 * (y - 1) + (y - 1) / 4 - (y - 1) / 100 + (y - 1) / 400

/-- CPython `_ymd2ord(year, month, day)`: the proleptic Gregorian ordinal
of the date (0001-01-01 is day 1). -/
def ymd2ord (y m d : Int) : Int := daysBeforeYear y + daysBeforeMonth y m + d

/-- The ordinal of a `Date`. -/
def Date.toOrd (d : Date) : Int := ymd2ord d.year d.month d.day

/-- The range validation performed by the `datetime.date` constructor
(`MINYEAR = 1`, `MAXYEAR = 9999`, month in 1..12, day in 1..days-in-month). -/
def Date.isValid (d : Date) : Prop :=
  1 ≤ d.year ∧ d.year ≤ 9999 ∧ 1 ≤ d.month ∧ d.month ≤ 12 ∧
    1 ≤ d.day ∧ d.day ≤ daysInMonth d.year d.month

instance (d : Date) : Decidable d.isValid := by unfold Date.isValid; infer_instance

/-- CPython `_isoweek1monday(year)`: the ordinal of the Monday starting
ISO week 1 of `year`. -/
def isoweek1monday (y : Int) : Int :=
  let firstday := ymd2ord y 1 1
  let firstweekday := (firstday + 6) % 7
  let week1monday := firstday - firstweekday
  if 3 < firstweekday then week1monday + 7 else week1monday

/-- CPython `date.isocalendar(self)`: the (ISO year, ISO week, ISO weekday)
triple, with week in 1..53 and weekday in 1..7 (Monday = 1). -/
def Date.isocalendar (d : Date) : Int × Int × Int :=
  let today := d.toOrd
  let w1m := isoweek1monday d.year
  let week := (today - w1m) / 7
  let day := (today - w1m) % 7
  if week < 0 then
    let w1m2 := isoweek1monday (d.year - 1)
    (d.year - 1, (today - w1m2) / 7 + 1, (today - w1m2) % 7 + 1)
  else if 52 ≤ week ∧ isoweek1monday (d.year + 1) ≤ today then
    (d.year + 1, 1, day + 1)
  else
    (d.year, week + 1, day + 1)

/-- The ordinal reconstructed from an ISO (year, week, weekday) triple:
the Monday of week 1 of the ISO year, plus 7 per elapsed week, plus the
elapsed weekdays. -/
def ordOfIso (t : Int × Int × Int) : Int :=
  isoweek1monday t.1 + 7 * (t.2.1 - 1) + (t.2.2 - 1)

/-! ### The grid model

`date_grid` fills a numpy 2-D array.  We model the array as a list of
rows, each cell an `Option α`.  `none` is the "missing" marker: for the
default `float64` dtype the code turns the freshly allocated array into
all-NaN (`grid = np.nan * grid`, line 28), and for the `object` dtype
(used by `add_month_label`) `np.empty` yields an all-`None` array; both
unset markers are modelled by `none`.  A written value `v` is `some v`. -/

abbrev Grid (α : Type) := List (List (Option α))

/-- Write `v` at position `j` of one row (out-of-range writes change nothing;
they never occur in the program). -/
def setRow {α : Type} : List (Option α) → Nat → α → List (Option α)
  | [], _, _ => []
  | _ :: rs, 0, v => some v :: rs
  | r :: rs, j + 1, v => r :: setRow rs j v

/-- Write `v` at row `i`, column `j` of a grid. -/
def setCell {α : Type} : Grid α → Nat → Nat → α → Grid α
  | [], _, _, _ => []
  | r :: rs, 0, j, v => setRow r j v :: rs
  | r :: rs, i + 1, j, v => r :: setCell rs i j v

/-- Read the cell at row `i`, column `j` (out-of-range reads give `none`). -/
def getCell {α : Type} (g : Grid α) (i j : Nat) : Option α :=
  (g.getD i []).getD j none

/-- numpy fancy-indexing assignment `grid[week_coords, day_coords] = data`
(line 29): the element writes happen in order, so with repeated
coordinates the last write wins. -/
def scatter {α : Type} (g : Grid α) (ps : List ((Nat × Nat) × α)) : Grid α :=
  ps.foldl (fun acc p => setCell acc p.1.1 p.1.2 p.2) g

/-- numpy `grid.T` (line 32) for a rectangular array stored as a list of
rows: column `j` of the input becomes row `j` of the output. -/
def gridT {α : Type} (g : Grid α) : Grid α :=
  (List.range (g.headD []).length).map fun j => g.map fun row => row.getD j none

/-- The value the fancy-indexing assignment leaves at coordinate `c`:
the value of the last listed write at `c`, if any. -/
def lastWrite {α : Type} : List ((Nat × Nat) × α) → Nat × Nat → Option α
  | [], _ => none
  | p :: ps, c =>
    match lastWrite ps c with
    | some v => some v
    | none => if p.1 = c then some p.2 else none

/-! ### Week keys, `sorted(list(set(...)))`, and `date_grid` -/

/-- Python tuple ordering on (ISO year, ISO week) pairs: lexicographic,
as used by `sorted` on line 15. -/
def pairLE (a b : Int × Int) : Prop := a.1 < b.1 ∨ (a.1 = b.1 ∧ a.2 ≤ b.2)

instance : DecidableRel pairLE := fun a b => by unfold pairLE; infer_instance

instance : IsTotal (Int × Int) pairLE := ⟨fun a b => by unfold pairLE; omega⟩

instance : IsTrans (Int × Int) pairLE := ⟨fun a b c => by unfold pairLE; omega⟩

/-- Python `sorted(list(set(xs)))`: the ascending sorted list of the
distinct elements of `xs`.  (`set` deduplicates; `sorted` orders the
distinct elements, so the result does not depend on the set's iteration
order.) -/
def sortedDistinct (xs : List (Int × Int)) : List (Int × Int) :=
  List.insertionSort pairLE xs.dedup

/-- The (ISO year, ISO week) key of a date: `tuple(row)` for a row of
`iso_dates[:, :2]` (line 15). -/
def weekKey (d : Date) : Int × Int := (d.isocalendar.1, d.isocalendar.2.1)

/-- Line 15: `unique_weeks = sorted(list(set([tuple(row) for row in iso_dates[:, :2]])))`. -/
def unique_weeks (dates : List Date) : List (Int × Int) :=
  sortedDistinct (dates.map weekKey)

/-- Lines 18–19: the row coordinate of a date,
`weeknum2idx[tuple(week)]` — the index of its week key in `unique_weeks`. -/
def weekCoord (dates : List Date) (d : Date) : Nat :=
  @List.indexOf _ instBEqOfDecidableEq (weekKey d) (unique_weeks dates)

/-- Line 20: `day_coords = iso_dates[:, 2] - 1` — the ISO weekday minus
one, used as the column coordinate.  The ISO weekday is in 1..7, so the
`Int.toNat` conversion to an index is lossless. -/
def dayCoord (d : Date) : Nat := (d.isocalendar.2.2 - 1).toNat

/-- The coordinate pair a date is scattered to. -/
def cellCoord (dates : List Date) (d : Date) : Nat × Nat :=
  (weekCoord dates d, dayCoord d)

/-- Lines 13–29 of `date_grid` for a non-empty date list: allocate a
`len(unique_weeks) × 7` grid of missing markers and scatter the data into
it at the (week, weekday) coordinates. -/
def rawGrid {α : Type} (dates : List Date) (data : List α) : Grid α :=
  scatter (List.replicate (unique_weeks dates).length (List.replicate 7 (none : Option α)))
    ((dates.map (cellCoord dates)).zip data)

/-- The function `date_grid(dates, data, flip, dtype)` (lines 9–34).

* On an empty `dates` list, `iso_dates = np.array([])` is a 1-D empty
  array and `iso_dates[:, :2]` on line 15 raises `IndexError` ("too many
  indices"); the raised exception is modelled by `none`.
* The `dtype` parameter is not carried: the two dtypes the repository
  uses, the default `"float64"` (missing marker NaN, from
  `grid = np.nan * grid` on line 28) and `"object"` (missing marker
  `None`, the fill of `np.empty` for object arrays), are both modelled by
  `Option α` cells with `none` as the missing marker.
* `if flip: return grid.T` (lines 31–32) is the final transpose. -/
def date_grid {α : Type} (dates : List Date) (data : List α) (flip : Bool) :
    Option (Grid α) :=
  match dates with
  | [] => none
  | _ :: _ => some (if flip then gridT (rawGrid dates data) else rawGrid dates data)

/-! ### Label-placement models (`add_date_label`, `add_month_label`, `add_year_label`) -/

/-- The number of distinct (ISO year, ISO week) pairs spanned by the
input dates — the specification's description of the grid's week-axis
extent, written independently of `unique_weeks`. -/
def nDistinctWeeks (dates : List Date) : Nat := (dates.map weekKey).toFinset.card

/-- Line 107: the `(day.year, day.month)` key of a date.  Line 108 turns
these tuples into strings and line 116 compares grid cells against the
strings; `str` is injective on int pairs, so the embedding keeps the
tuples themselves. -/
def monthKey (d : Date) : Int × Int := (d.year, d.month)

/-- Line 111: `unique_month_years = sorted(set(month_years))`. -/
def unique_month_years (dates : List Date) : List (Int × Int) :=
  sortedDistinct (dates.map monthKey)

/-- Line 109: `month_year_grid = date_grid(dates, month_years_str, flip, dtype="object")`. -/
def month_year_grid (dates : List Date) (flip : Bool) : Option (Grid (Int × Int)) :=
  date_grid dates (dates.map monthKey) flip

/-- The coordinates `np.nonzero(grid == v)` returns: all (row, column)
pairs whose cell holds exactly `v` (missing cells — `None`/NaN — never
compare equal to `v`). -/
def matchCoords {α : Type} [DecidableEq α] (g : Grid α) (v : α) : List (Nat × Nat) :=
  ((List.range g.length).flatMap fun i =>
      (List.range (g.getD i []).length).map fun j => (i, j)).filter
    fun c => decide (getCell g c.1 c.2 = some v)

/-- The coordinates of matching cells along the weeks axis: `xx` (columns)
when the grid is flipped, `yy` (rows) otherwise. -/
def weeksAxisCoords {α : Type} [DecidableEq α] (g : Grid α) (v : α) (flip : Bool) : List Nat :=
  (matchCoords g v).map fun c => if flip then c.2 else c.1

/-- numpy `xs.max()` of a 1-D array, as an option (numpy raises on an
empty array; the callers below only reach it with non-empty matches). -/
def natMax? : List Nat → Option Nat
  | [] => none
  | x :: xs =>
    some (match natMax? xs with
      | none => x
      | some m => max x m)

/-- numpy `xs.min()`, analogous to `natMax?`. -/
def natMin? : List Nat → Option Nat
  | [] => none
  | x :: xs =>
    some (match natMin? xs with
      | none => x
      | some m => min x m)

/-- Lines 113–117 of `add_month_label`, for one month key:
`yy, xx = np.nonzero(month_year_grid == str(month))` followed by
`month_locs[month] = (xx.max() + xx.min() if flip else yy.max() + yy.min()) / 2`
(Python true division, modelled in `ℚ`). -/
def month_label_loc (dates : List Date) (flip : Bool) (k : Int × Int) : Option ℚ :=
  match month_year_grid dates flip with
  | none => none
  | some g =>
    match natMax? (weeksAxisCoords g k flip), natMin? (weeksAxisCoords g k flip) with
    | some M, some m => some (((M : ℚ) + m) / 2)
    | _, _ => none

/-- Line 132: `year_grid = date_grid(dates, years, flip)` (default
`float64` dtype; the year values live in the cells as floats, and the
comparison `year_grid == year` on line 137 is numeric equality, false on
NaN cells). -/
def year_grid (dates : List Date) (flip : Bool) : Option (Grid Int) :=
  date_grid dates (dates.map Date.year) flip

/-- Line 133: `unique_years = sorted(set(years))`. -/
def unique_years (dates : List Date) : List Int :=
  List.insertionSort (· ≤ ·) (dates.map Date.year).dedup

/-- Lines 135–140 of `add_year_label`, for one year:
`yy, xx = np.nonzero(year_grid == year)` followed by
`year_locs[year] = (xx.max() + 1 + xx.min() if flip else yy.max() + 1 + yy.min()) / 2`
— note the extra `+ 1` that `add_month_label` does not have. -/
def year_label_loc (dates : List Date) (flip : Bool) (y : Int) : Option ℚ :=
  match year_grid dates flip with
  | none => none
  | some g =>
    match natMax? (weeksAxisCoords g y flip), natMin? (weeksAxisCoords g y flip) with
    | some M, some m => some (((M : ℚ) + 1 + m) / 2)
    | _, _ => none

/-- Model of `add_date_label` (lines 78–87):

```
days = [day.day for day in dates]
day_grid = date_grid(dates, days, flip)
for i, j in np.ndindex(day_grid.shape):
    try:
        ax.text(j + 0.5, i + 0.5, int(date_grid[i, j]), ...)
    except ValueError:
        pass
```

* An empty `dates` list makes `date_grid` raise `IndexError` (modelled
  `Except.error "IndexError"`).
* Otherwise `np.ndindex(day_grid.shape)` is empty only for a zero-sized
  grid, which cannot arise here; the first iteration evaluates
  `int(date_grid[i, j])`, which subscripts the *function* `date_grid`
  (the computed `day_grid` is never read) and raises
  `TypeError: 'function' object is not subscriptable`.  The
  `except ValueError` handler does not catch `TypeError`, so the call
  raises for every non-empty input (modelled `Except.error "TypeError"`). -/
def add_date_label (dates : List Date) (flip : Bool) : Except String Unit :=
  let days := dates.map Date.day
  match date_grid dates days flip with
  | none => Except.error "IndexError"
  | some day_grid =>
    if day_grid.length * (day_grid.headD []).length = 0 then Except.ok ()
    else Except.error "TypeError"

/-! ### Arithmetic facts about the CPython calendar functions -/

lemma leapDay_bounds (y : Int) : 0 ≤ leapDay y ∧ leapDay y ≤ 1 := by
  unfold leapDay; split <;> omega

lemma daysBeforeYear_succ (y : Int) :
    daysBeforeYear (y + 1) = daysBeforeYear y + 365 + leapDay y := by
  unfold daysBeforeYear leapDay isLeap
  by_cases h4 : y % 4 = 0 <;> by_cases h100 : y % 100 = 0 <;> by_cases h400 : y % 400 = 0 <;>
    simp [h4, h100, h400] <;> omega

lemma daysBeforeYear_mono {a b : Int} (h : a ≤ b) :
    daysBeforeYear a ≤ daysBeforeYear b := by
  unfold daysBeforeYear; omega

lemma inYear_bounds (y m dd : Int) (hm1 : 1 ≤ m) (hm2 : m ≤ 12)
    (hd1 : 1 ≤ dd) (hd2 : dd ≤ daysInMonth y m) :
    1 ≤ daysBeforeMonth y m + dd ∧ daysBeforeMonth y m + dd ≤ 365 + leapDay y := by
  have hl := leapDay_bounds y
  unfold daysInMonth at hd2
  unfold daysBeforeMonth daysBeforeMonthTable
  interval_cases m <;> norm_num at hd2 ⊢ <;> omega

lemma inYear_inj (y m1 d1 m2 d2 : Int) (hm1 : 1 ≤ m1) (hm2 : m1 ≤ 12)
    (hd1 : 1 ≤ d1) (hd2 : d1 ≤ daysInMonth y m1)
    (hm1' : 1 ≤ m2) (hm2' : m2 ≤ 12)
    (hd1' : 1 ≤ d2) (hd2' : d2 ≤ daysInMonth y m2)
    (h : daysBeforeMonth y m1 + d1 = daysBeforeMonth y m2 + d2) :
    m1 = m2 ∧ d1 = d2 := by
  have hl := leapDay_bounds y
  unfold daysInMonth at hd2 hd2'
  unfold daysBeforeMonth daysBeforeMonthTable at h
  interval_cases m1 <;> interval_cases m2 <;> norm_num at hd2 hd2' h ⊢ <;> omega

lemma ord_bounds (d : Date) (h : d.isValid) :
    daysBeforeYear d.year + 1 ≤ d.toOrd ∧
      d.toOrd ≤ daysBeforeYear d.year + 365 + leapDay d.year := by
  obtain ⟨_, _, hm1, hm2, hd1, hd2⟩ := h
  have := inYear_bounds d.year d.month d.day hm1 hm2 hd1 hd2
  unfold Date.toOrd ymd2ord
  omega

lemma ymd2ord_inj {a b : Date} (ha : a.isValid) (hb : b.isValid)
    (h : a.toOrd = b.toOrd) : a = b := by
  have hya : a.year = b.year := by
    rcases lt_trichotomy a.year b.year with hlt | heq | hgt
    · exfalso
      have h1 := ord_bounds a ha
      have h2 := ord_bounds b hb
      have h3 := daysBeforeYear_succ a.year
      have h4 := daysBeforeYear_mono (show a.year + 1 ≤ b.year by omega)
      omega
    · exact heq
    · exfalso
      have h1 := ord_bounds a ha
      have h2 := ord_bounds b hb
      have h3 := daysBeforeYear_succ b.year
      have h4 := daysBeforeYear_mono (show b.year + 1 ≤ a.year by omega)
      omega
  obtain ⟨_, _, hm1, hm2, hd1, hd2⟩ := ha
  obtain ⟨_, _, hm1', hm2', hd1', hd2'⟩ := hb
  unfold Date.toOrd ymd2ord at h
  rw [hya] at h hd2
  have hmd := inYear_inj b.year a.month a.day b.month b.day hm1 hm2 hd1 hd2
    hm1' hm2' hd1' hd2' (by omega)
  obtain ⟨am, ad⟩ := a
  obtain ⟨bm, bd⟩ := b
  simp_all

lemma ymd2ord_jan1 (y : Int) : ymd2ord y 1 1 = daysBeforeYear y + 1 := by
  unfold ymd2ord daysBeforeMonth daysBeforeMonthTable
  norm_num

lemma isoweek1monday_facts (y : Int) :
    isoweek1monday y % 7 = 1 ∧
      daysBeforeYear y + 1 - 6 ≤ isoweek1monday y ∧
      isoweek1monday y ≤ daysBeforeYear y + 1 + 3 := by
  unfold isoweek1monday
  rw [ymd2ord_jan1]
  dsimp only
  split <;> omega

lemma ordOfIso_isocalendar (d : Date) (h : d.isValid) :
    ordOfIso d.isocalendar = d.toOrd := by
  have hb := ord_bounds d h
  have h1 := daysBeforeYear_succ d.year
  have hw1 := isoweek1monday_facts d.year
  have hw2 := isoweek1monday_facts (d.year + 1)
  unfold Date.isocalendar ordOfIso
  dsimp only
  split
  · dsimp only
    omega
  · split
    · dsimp only
      omega
    · dsimp only
      omega

lemma isocalendar_inj {a b : Date} (ha : a.isValid) (hb : b.isValid)
    (h : a.isocalendar = b.isocalendar) : a = b := by
  refine ymd2ord_inj ha hb ?_
  rw [← ordOfIso_isocalendar a ha, ← ordOfIso_isocalendar b hb, h]

lemma isoWeekday_range (d : Date) :
    1 ≤ d.isocalendar.2.2 ∧ d.isocalendar.2.2 ≤ 7 := by
  unfold Date.isocalendar
  dsimp only
  split
  · dsimp only
    omega
  · split
    · dsimp only
      omega
    · dsimp only
      omega

lemma setRow_length {α : Type} (row : List (Option α)) (j : Nat) (v : α) :
    (setRow row j v).length = row.length := by
  induction row generalizing j with
  | nil => rfl
  | cons r rs ih => cases j <;> simp [setRow, ih]

lemma setCell_length {α : Type} (g : Grid α) (i j : Nat) (v : α) :
    (setCell g i j v).length = g.length := by
  induction g generalizing i with
  | nil => rfl
  | cons r rs ih => cases i <;> simp [setCell, ih]

lemma setCell_rows {α : Type} (g : Grid α) (i j : Nat) (v : α) (w : Nat)
    (hg : ∀ r ∈ g, r.length = w) : ∀ r ∈ setCell g i j v, r.length = w := by
  induction g generalizing i with
  | nil => simp [setCell]
  | cons r rs ih =>
    cases i with
    | zero =>
      intro r' hr'
      rcases List.mem_cons.mp hr' with h | h
      · rw [h, setRow_length]; exact hg r (List.mem_cons_self _ _)
      · exact hg r' (List.mem_cons_of_mem _ h)
    | succ i =>
      intro r' hr'
      rcases List.mem_cons.mp hr' with h | h
      · exact hg r' (h ▸ List.mem_cons_self _ _)
      · exact ih i (fun x hx => hg x (List.mem_cons_of_mem _ hx)) r' h

lemma setRow_getD_same {α : Type} (row : List (Option α)) (j : Nat) (v : α)
    (hj : j < row.length) : (setRow row j v).getD j none = some v := by
  induction row generalizing j with
  | nil => simp at hj
  | cons r rs ih =>
    cases j with
    | zero => rfl
    | succ j => exact ih j (by simpa using hj)

lemma setRow_getD_ne {α : Type} (row : List (Option α)) (j j' : Nat) (v : α)
    (h : j ≠ j') : (setRow row j' v).getD j none = row.getD j none := by
  induction row generalizing j j' with
  | nil => rfl
  | cons r rs ih =>
    cases j' with
    | zero => cases j with
      | zero => exact absurd rfl h
      | succ j => rfl
    | succ j' => cases j with
      | zero => rfl
      | succ j => exact ih j j' (by omega)

lemma getCell_setCell_same {α : Type} (g : Grid α) (i j : Nat) (v : α)
    (hi : i < g.length) (hj : j < (g.getD i []).length) :
    getCell (setCell g i j v) i j = some v := by
  induction g generalizing i with
  | nil => simp at hi
  | cons r rs ih =>
    cases i with
    | zero => exact setRow_getD_same r j v hj
    | succ i => exact ih i (by simpa using hi) hj

lemma getCell_setCell_ne {α : Type} (g : Grid α) (i j i' j' : Nat) (v : α)
    (h : (i, j) ≠ (i', j')) :
    getCell (setCell g i' j' v) i j = getCell g i j := by
  induction g generalizing i i' with
  | nil => rfl
  | cons r rs ih =>
    cases i' with
    | zero => cases i with
      | zero =>
        have hj : j ≠ j' := by intro hh; exact h (by simp [hh])
        exact setRow_getD_ne r j j' v hj
      | succ i => rfl
    | succ i' => cases i with
      | zero => rfl
      | succ i =>
        have : (i, j) ≠ (i', j') := by
          intro hh
          apply h
          simp only [Prod.mk.injEq] at hh ⊢
          omega
        exact ih i i' this

lemma getD_mem {α : Type} (l : List α) (i : Nat) (d : α) (h : i < l.length) :
    l.getD i d ∈ l := by
  rw [List.getD_eq_getElem?_getD, List.getElem?_eq_getElem h]
  exact List.getElem_mem _

lemma scatter_length {α : Type} (g : Grid α) (ps : List ((Nat × Nat) × α)) :
    (scatter g ps).length = g.length := by
  induction ps generalizing g with
  | nil => rfl
  | cons p ps ih =>
    have hstep : scatter g (p :: ps) = scatter (setCell g p.1.1 p.1.2 p.2) ps := rfl
    rw [hstep, ih, setCell_length]

lemma scatter_rows {α : Type} (g : Grid α) (ps : List ((Nat × Nat) × α)) (w : Nat)
    (hg : ∀ r ∈ g, r.length = w) : ∀ r ∈ scatter g ps, r.length = w := by
  induction ps generalizing g with
  | nil => exact hg
  | cons p ps ih => exact ih _ (setCell_rows g p.1.1 p.1.2 p.2 w hg)

lemma getCell_scatter {α : Type} (g : Grid α) (ps : List ((Nat × Nat) × α)) (i j : Nat)
    (hg : ∀ r ∈ g, r.length = 7)
    (hps : ∀ p ∈ ps, p.1.1 < g.length ∧ p.1.2 < 7) :
    getCell (scatter g ps) i j =
      match lastWrite ps (i, j) with
      | some v => some v
      | none => getCell g i j := by
  induction ps generalizing g with
  | nil => rfl
  | cons p ps ih =>
    have hstep : scatter g (p :: ps) = scatter (setCell g p.1.1 p.1.2 p.2) ps := rfl
    have hg' : ∀ r ∈ setCell g p.1.1 p.1.2 p.2, r.length = 7 :=
      setCell_rows g p.1.1 p.1.2 p.2 7 hg
    have hps' : ∀ q ∈ ps, q.1.1 < (setCell g p.1.1 p.1.2 p.2).length ∧ q.1.2 < 7 := by
      intro q hq
      rw [setCell_length]
      exact hps q (List.mem_cons_of_mem _ hq)
    rw [hstep, ih _ hg' hps']
    rcases hlw : lastWrite ps (i, j) with _ | v
    · rcases hp : decide (p.1 = (i, j)) with _ | _
      · have hp' : p.1 ≠ (i, j) := of_decide_eq_false hp
        have hne : (i, j) ≠ (p.1.1, p.1.2) := by
          intro hh
          rw [Prod.mk.injEq] at hh
          exact hp' (Prod.ext hh.1.symm hh.2.symm)
        rw [getCell_setCell_ne g i j p.1.1 p.1.2 p.2 hne]
        simp [lastWrite, hlw, hp']
      · have hp' : p.1 = (i, j) := of_decide_eq_true hp
        have hp1 : p.1.1 = i := congrArg Prod.fst hp'
        have hp2 : p.1.2 = j := congrArg Prod.snd hp'
        have hbounds := hps p (List.mem_cons_self _ _)
        rw [hp1, hp2] at hbounds
        have hi : i < g.length := hbounds.1
        have hj : j < (g.getD i []).length := by
          rw [hg _ (getD_mem g i [] hi)]
          exact hbounds.2
        have hcell : getCell (setCell g p.1.1 p.1.2 p.2) i j = some p.2 := by
          rw [hp1, hp2]
          exact getCell_setCell_same g i j p.2 hi hj
        rw [hcell]
        simp [lastWrite, hlw, hp']
    · simp [lastWrite, hlw]

lemma sortedDistinct_nodup (xs : List (Int × Int)) : (sortedDistinct xs).Nodup :=
  ((List.perm_insertionSort pairLE xs.dedup).nodup_iff).mpr (List.nodup_dedup xs)

lemma mem_sortedDistinct (xs : List (Int × Int)) (a : Int × Int) :
    a ∈ sortedDistinct xs ↔ a ∈ xs := by
  unfold sortedDistinct
  rw [(List.perm_insertionSort pairLE xs.dedup).mem_iff, List.mem_dedup]

lemma sortedDistinct_length (xs : List (Int × Int)) :
    (sortedDistinct xs).length = xs.dedup.length :=
  (List.perm_insertionSort pairLE xs.dedup).length_eq

lemma sortedDistinct_sorted (xs : List (Int × Int)) :
    List.Sorted pairLE (sortedDistinct xs) :=
  List.sorted_insertionSort pairLE xs.dedup

lemma rawGrid_length {α : Type} (dates : List Date) (data : List α) :
    (rawGrid dates data).length = (unique_weeks dates).length := by
  unfold rawGrid
  rw [scatter_length, List.length_replicate]

lemma rawGrid_rows {α : Type} (dates : List Date) (data : List α) :
    ∀ r ∈ rawGrid dates data, r.length = 7 := by
  unfold rawGrid
  apply scatter_rows
  intro r hr
  rw [List.eq_of_mem_replicate hr, List.length_replicate]

lemma weekKey_mem {dates : List Date} {d : Date} (h : d ∈ dates) :
    weekKey d ∈ unique_weeks dates := by
  rw [unique_weeks, mem_sortedDistinct]
  exact List.mem_map_of_mem weekKey h

lemma weekCoord_lt {dates : List Date} {d : Date} (h : d ∈ dates) :
    weekCoord dates d < (unique_weeks dates).length := by
  unfold weekCoord
  exact List.indexOf_lt_length.mpr (weekKey_mem h)

lemma weekCoord_inj {dates : List Date} {a b : Date} (ha : a ∈ dates) (hb : b ∈ dates)
    (h : weekCoord dates a = weekCoord dates b) : weekKey a = weekKey b := by
  unfold weekCoord at h
  exact (List.indexOf_inj (weekKey_mem ha) (weekKey_mem hb)).mp h

lemma dayCoord_lt (d : Date) : dayCoord d < 7 := by
  have := isoWeekday_range d
  unfold dayCoord
  omega

lemma dayCoord_inj {a b : Date} (h : dayCoord a = dayCoord b) :
    a.isocalendar.2.2 = b.isocalendar.2.2 := by
  have h1 := isoWeekday_range a
  have h2 := isoWeekday_range b
  unfold dayCoord at h
  omega

/-- Two valid input dates scattered to the same grid cell are the same
date: the cell coordinates determine the ISO triple, which determines the
ordinal, which determines the date. -/
lemma cellCoord_inj {dates : List Date} {a b : Date} (ha : a ∈ dates) (hb : b ∈ dates)
    (hva : a.isValid) (hvb : b.isValid)
    (h : cellCoord dates a = cellCoord dates b) : a = b := by
  rw [cellCoord, cellCoord, Prod.mk.injEq] at h
  have hkey : weekKey a = weekKey b := weekCoord_inj ha hb h.1
  have hday : a.isocalendar.2.2 = b.isocalendar.2.2 := dayCoord_inj h.2
  rw [weekKey, weekKey, Prod.mk.injEq] at hkey
  refine isocalendar_inj hva hvb ?_
  refine Prod.ext hkey.1 (Prod.ext hkey.2 hday)

lemma getCell_empty {α : Type} (n i j : Nat) :
    getCell (List.replicate n (List.replicate 7 (none : Option α))) i j = none := by
  unfold getCell
  rcases Nat.lt_or_ge i n with h | h
  · have hrow : (List.replicate n (List.replicate 7 (none : Option α))).getD i [] =
        List.replicate 7 none := by
      rw [List.getD_eq_getElem?_getD, List.getElem?_replicate, if_pos h]
      rfl
    rw [hrow, List.getD_eq_getElem?_getD, List.getElem?_replicate]
    split <;> rfl
  · have hrow : (List.replicate n (List.replicate 7 (none : Option α))).getD i [] = [] := by
      rw [List.getD_eq_getElem?_getD, List.getElem?_replicate, if_neg (Nat.not_lt.mpr h)]
      rfl
    rw [hrow]
    rfl

lemma coords_bounded {α : Type} (dates : List Date) (data : List α) :
    ∀ p ∈ (dates.map (cellCoord dates)).zip data,
      p.1.1 < (List.replicate (unique_weeks dates).length
        (List.replicate 7 (none : Option α))).length ∧ p.1.2 < 7 := by
  intro p hp
  obtain ⟨c, v⟩ := p
  have hc : c ∈ dates.map (cellCoord dates) := (List.of_mem_zip hp).1
  obtain ⟨d, hd, hcd⟩ := List.mem_map.mp hc
  rw [List.length_replicate, ← hcd]
  exact ⟨weekCoord_lt hd, dayCoord_lt d⟩

/-- Every cell of the scattered grid holds the value of the last write to
it, and the missing marker when no input writes to it. -/
lemma getCell_rawGrid {α : Type} (dates : List Date) (data : List α) (i j : Nat) :
    getCell (rawGrid dates data) i j =
      lastWrite ((dates.map (cellCoord dates)).zip data) (i, j) := by
  unfold rawGrid
  rw [getCell_scatter _ _ i j
    (fun r hr => by rw [List.eq_of_mem_replicate hr, List.length_replicate])
    (coords_bounded dates data)]
  rcases h : lastWrite ((dates.map (cellCoord dates)).zip data) (i, j) with _ | v
  · exact getCell_empty _ i j
  · rfl

lemma lastWrite_eq_none {α : Type} (ps : List ((Nat × Nat) × α)) (c : Nat × Nat)
    (h : ∀ p ∈ ps, p.1 ≠ c) : lastWrite ps c = none := by
  induction ps with
  | nil => rfl
  | cons p ps ih =>
    rw [lastWrite, ih (fun q hq => h q (List.mem_cons_of_mem _ hq))]
    simp [h p (List.mem_cons_self _ _)]

lemma lastWrite_eq_some {α : Type} (ps : List ((Nat × Nat) × α)) (c : Nat × Nat)
    (k : Nat) (hk : k < ps.length) (hcoord : (ps.get ⟨k, hk⟩).1 = c)
    (hlast : ∀ k', (hk' : k' < ps.length) → k < k' → (ps.get ⟨k', hk'⟩).1 ≠ c) :
    lastWrite ps c = some (ps.get ⟨k, hk⟩).2 := by
  induction ps generalizing k with
  | nil => simp at hk
  | cons p ps ih =>
    cases k with
    | zero =>
      have hnone : lastWrite ps c = none := by
        apply lastWrite_eq_none
        intro q hq
        obtain ⟨⟨k', hk'⟩, hget⟩ := List.mem_iff_get.mp hq
        rw [← hget]
        exact hlast (k' + 1) (by simpa using hk') (Nat.succ_pos k')
      have hp : p.1 = c := hcoord
      rw [lastWrite, hnone]
      show (if p.1 = c then some p.2 else none) = some p.2
      rw [if_pos hp]
    | succ k =>
      have hk2 : k < ps.length := by simpa using hk
      have hih := ih k hk2 hcoord
        (fun k' hk' hgt => hlast (k' + 1) (by simpa using hk') (by omega))
      rw [lastWrite, hih]
      rfl

/-! ### Transpose lemmas -/

lemma getCell_eq_bind {α : Type} (g : Grid α) (i j : Nat) :
    getCell g i j = ((g[i]?).bind fun r => r[j]?).getD none := by
  unfold getCell
  rcases h : g[i]? with _ | r
  · have h2 : g.getD i [] = [] := by rw [List.getD_eq_getElem?_getD, h]; rfl
    rw [h2]
    rfl
  · have h2 : g.getD i [] = r := by rw [List.getD_eq_getElem?_getD, h]; rfl
    rw [h2, List.getD_eq_getElem?_getD]
    rfl

lemma getCell_gridT {α : Type} (g : Grid α) (w : Nat) (hg : g ≠ []) (hw : ∀ r ∈ g, r.length = w)
    (i j : Nat) : getCell (gridT g) j i = getCell g i j := by
  have hhead : (g.headD []).length = w := by
    cases g with
    | nil => exact absurd rfl hg
    | cons r rs => exact hw r (List.mem_cons_self _ _)
  rw [getCell_eq_bind, getCell_eq_bind]
  unfold gridT
  rw [hhead]
  rcases Nat.lt_or_ge j w with hj | hj
  · rw [List.getElem?_map, List.getElem?_range hj]
    simp only [Option.map_some', Option.some_bind]
    rw [List.getElem?_map]
    rcases hi : g[i]? with _ | r
    · rfl
    · simp only [Option.map_some', Option.some_bind]
      rw [List.getD_eq_getElem?_getD]
      rfl
  · rw [List.getElem?_map, List.getElem?_eq_none (by rw [List.length_range]; exact hj)]
    simp only [Option.map_none', Option.none_bind]
    rcases hi : g[i]? with _ | r
    · rfl
    · simp only [Option.some_bind]
      have hr : r.length = w := hw r (List.getElem?_mem hi)
      rw [List.getElem?_eq_none (by omega)]

lemma gridT_length {α : Type} (g : Grid α) (w : Nat) (hg : g ≠ []) (hw : ∀ r ∈ g, r.length = w) :
    (gridT g).length = w := by
  have hhead : (g.headD []).length = w := by
    cases g with
    | nil => exact absurd rfl hg
    | cons r rs => exact hw r (List.mem_cons_self _ _)
  unfold gridT
  rw [List.length_map, List.length_range, hhead]

lemma gridT_rows {α : Type} (g : Grid α) :
    ∀ r ∈ gridT g, r.length = g.length := by
  intro r hr
  unfold gridT at hr
  obtain ⟨j, hj, rfl⟩ := List.mem_map.mp hr
  rw [List.length_map]

lemma getCell_eq_get {α : Type} (g : Grid α) (i j : Nat) (hi : i < g.length)
    (hj : j < (g.get ⟨i, hi⟩).length) :
    getCell g i j = (g.get ⟨i, hi⟩).get ⟨j, hj⟩ := by
  rw [getCell_eq_bind, List.getElem?_eq_getElem hi]
  simp only [Option.some_bind]
  rw [List.getElem?_eq_getElem (by simpa using hj)]
  simp [List.get_eq_getElem]

lemma gridT_gridT {α : Type} (g : Grid α) (hg : g ≠ []) (hw : ∀ r ∈ g, r.length = 7) :
    gridT (gridT g) = g := by
  have h1 : (gridT g).length = 7 := gridT_length g 7 hg hw
  have h2 : ∀ r ∈ gridT g, r.length = g.length := gridT_rows g
  have hg2 : gridT g ≠ [] := by
    intro hc
    rw [hc] at h1
    simp at h1
  apply List.ext_get
  · rw [gridT_length (gridT g) g.length hg2 h2]
  · intro i hi1 hi2
    apply List.ext_get
    · rw [gridT_rows (gridT g) _ (List.get_mem _ _ _), h1]
      exact (hw _ (List.get_mem _ _ _)).symm
    · intro j hj1 hj2
      have hi2' : i < g.length := hi2
      have hj2' : j < (g.get ⟨i, hi2'⟩).length := hj2
      have hj7 : j < 7 := by
        rw [hw _ (List.get_mem _ _ _)] at hj2'
        exact hj2'
      rw [← getCell_eq_get, ← getCell_eq_get]
      rw [getCell_gridT (gridT g) g.length hg2 h2 j i, getCell_gridT g 7 hg hw i j]

/-! ### Supporting lemmas for the label-placement models -/

lemma getCell_some_bounds {α : Type} {g : Grid α} {i j : Nat} {v : α}
    (h : getCell g i j = some v) :
    i < g.length ∧ j < (g.getD i []).length := by
  unfold getCell at h
  rcases Nat.lt_or_ge i g.length with hi | hi
  · refine ⟨hi, ?_⟩
    rcases Nat.lt_or_ge j (g.getD i []).length with hj | hj
    · exact hj
    · rw [List.getD_eq_getElem?_getD, List.getElem?_eq_none hj] at h
      exact absurd h (by simp)
  · have : g.getD i [] = [] := by
      rw [List.getD_eq_getElem?_getD, List.getElem?_eq_none hi]
      rfl
    rw [this] at h
    exact absurd h (by simp [List.getD])

lemma mem_matchCoords {α : Type} [DecidableEq α] (g : Grid α) (v : α) (c : Nat × Nat) :
    c ∈ matchCoords g v ↔ getCell g c.1 c.2 = some v := by
  unfold matchCoords
  rw [List.mem_filter]
  constructor
  · intro h
    simpa using h.2
  · intro h
    refine ⟨?_, by simpa using h⟩
    obtain ⟨hi, hj⟩ := getCell_some_bounds h
    rw [List.mem_flatMap]
    refine ⟨c.1, List.mem_range.mpr hi, ?_⟩
    rw [List.mem_map]
    exact ⟨c.2, List.mem_range.mpr hj, rfl⟩

lemma natMax?_spec {l : List Nat} {M : Nat} (h : natMax? l = some M) :
    M ∈ l ∧ ∀ x ∈ l, x ≤ M := by
  induction l generalizing M with
  | nil => simp [natMax?] at h
  | cons x xs ih =>
    rw [natMax?] at h
    rcases hx : natMax? xs with _ | m
    · rw [hx] at h
      cases xs with
      | nil =>
        simp only [Option.some.injEq] at h
        subst h
        simp
      | cons y ys => simp [natMax?] at hx
    · rw [hx] at h
      simp only [Option.some.injEq] at h
      obtain ⟨hmem, hbound⟩ := ih hx
      subst h
      constructor
      · rcases Nat.le_total x m with hc | hc
        · rw [Nat.max_eq_right hc]
          exact List.mem_cons_of_mem _ hmem
        · rw [Nat.max_eq_left hc]
          exact List.mem_cons_self _ _
      · intro z hz
        rcases List.mem_cons.mp hz with hz | hz
        · subst hz
          omega
        · have := hbound z hz
          omega

lemma natMin?_spec {l : List Nat} {m : Nat} (h : natMin? l = some m) :
    m ∈ l ∧ ∀ x ∈ l, m ≤ x := by
  induction l generalizing m with
  | nil => simp [natMin?] at h
  | cons x xs ih =>
    rw [natMin?] at h
    rcases hx : natMin? xs with _ | m'
    · rw [hx] at h
      cases xs with
      | nil =>
        simp only [Option.some.injEq] at h
        subst h
        simp
      | cons y ys => simp [natMin?] at hx
    · rw [hx] at h
      simp only [Option.some.injEq] at h
      obtain ⟨hmem, hbound⟩ := ih hx
      subst h
      constructor
      · rcases Nat.le_total x m' with hc | hc
        · rw [Nat.min_eq_left hc]
          exact List.mem_cons_self _ _
        · rw [Nat.min_eq_right hc]
          exact List.mem_cons_of_mem _ hmem
      · intro z hz
        rcases List.mem_cons.mp hz with hz | hz
        · subst hz
          omega
        · have := hbound z hz
          omega

lemma natMax?_isSome {l : List Nat} (h : l ≠ []) : ∃ M, natMax? l = some M := by
  cases l with
  | nil => exact absurd rfl h
  | cons x xs => exact ⟨_, rfl⟩

lemma natMin?_isSome {l : List Nat} (h : l ≠ []) : ∃ m, natMin? l = some m := by
  cases l with
  | nil => exact absurd rfl h
  | cons x xs => exact ⟨_, rfl⟩

lemma lastWrite_some_mem {α : Type} {ps : List ((Nat × Nat) × α)} {c : Nat × Nat} {v : α}
    (h : lastWrite ps c = some v) : ∃ p ∈ ps, p.1 = c ∧ p.2 = v := by
  induction ps with
  | nil => simp [lastWrite] at h
  | cons p ps ih =>
    rw [lastWrite] at h
    rcases hx : lastWrite ps c with _ | w
    · rw [hx] at h
      rcases hp : decide (p.1 = c) with _ | _
      · have hp' : p.1 ≠ c := of_decide_eq_false hp
        rw [if_neg hp'] at h
        exact absurd h (by simp)
      · have hp' : p.1 = c := of_decide_eq_true hp
        rw [if_pos hp'] at h
        simp only [Option.some.injEq] at h
        exact ⟨p, List.mem_cons_self _ _, hp', h⟩
    · rw [hx] at h
      simp only [Option.some.injEq] at h
      obtain ⟨q, hq, hqc, hqv⟩ := ih (hx.trans (by rw [h]))
      exact ⟨q, List.mem_cons_of_mem _ hq, hqc, hqv⟩

lemma lastWrite_isSome {α : Type} {ps : List ((Nat × Nat) × α)} {c : Nat × Nat}
    (h : ∃ p ∈ ps, p.1 = c) : ∃ v, lastWrite ps c = some v := by
  induction ps with
  | nil => simp at h
  | cons p ps ih =>
    rw [lastWrite]
    rcases hx : lastWrite ps c with _ | w
    · obtain ⟨q, hq, hqc⟩ := h
      rcases List.mem_cons.mp hq with hq | hq
      · subst hq
        rw [if_pos hqc]
        exact ⟨_, rfl⟩
      · obtain ⟨v, hv⟩ := ih ⟨q, hq, hqc⟩
        rw [hv] at hx
        exact absurd hx (by simp)
    · exact ⟨_, rfl⟩

/-- The cell a date is scattered to holds the value `f` assigns to that
date, whenever `f` agrees on dates sharing a cell (in particular for all
valid-date inputs, where sharing a cell forces equality of dates). -/
lemma rawGrid_cell_map {α : Type} (dates : List Date) (f : Date → α) {d : Date}
    (hd : d ∈ dates)
    (hf : ∀ a b, a ∈ dates → b ∈ dates → cellCoord dates a = cellCoord dates b → f a = f b) :
    getCell (rawGrid dates (dates.map f)) (weekCoord dates d) (dayCoord d) = some (f d) := by
  rw [getCell_rawGrid]
  have hzip : (dates.map (cellCoord dates)).zip (dates.map f) =
      dates.map fun a => (cellCoord dates a, f a) := List.zip_map' _ _ _
  have hex : ∃ p ∈ (dates.map (cellCoord dates)).zip (dates.map f),
      p.1 = (weekCoord dates d, dayCoord d) := by
    rw [hzip]
    exact ⟨(cellCoord dates d, f d), List.mem_map_of_mem _ hd, rfl⟩
  obtain ⟨v, hv⟩ := lastWrite_isSome hex
  obtain ⟨p, hp, hpc, hpv⟩ := lastWrite_some_mem hv
  rw [hzip] at hp
  obtain ⟨a, ha, hap⟩ := List.mem_map.mp hp
  rw [hv]
  have hac : cellCoord dates a = cellCoord dates d := by
    have : p.1 = cellCoord dates a := by rw [← hap]
    rw [← this, hpc]
    rfl
  have : f a = f d := hf a d ha hd hac
  rw [← hpv, ← hap]
  simpa using this

/-! ### Bridge lemmas for `date_grid` -/

lemma date_grid_eq_some {α : Type} (dates : List Date) (data : List α) (flip : Bool)
    (h : dates ≠ []) :
    date_grid dates data flip =
      some (if flip then gridT (rawGrid dates data) else rawGrid dates data) := by
  cases dates with
  | nil => exact absurd rfl h
  | cons d ds => rfl

lemma unique_weeks_ne_nil {dates : List Date} (h : dates ≠ []) :
    unique_weeks dates ≠ [] := by
  cases dates with
  | nil => exact absurd rfl h
  | cons d ds =>
    intro hc
    have hm := weekKey_mem (List.mem_cons_self d ds)
    rw [hc] at hm
    simp at hm

lemma unique_weeks_length (dates : List Date) :
    (unique_weeks dates).length = nDistinctWeeks dates := by
  unfold unique_weeks nDistinctWeeks
  rw [sortedDistinct_length, List.card_toFinset]

lemma rawGrid_ne_nil {α : Type} (dates : List Date) (data : List α) (h : dates ≠ []) :
    rawGrid dates data ≠ [] := by
  intro hc
  have hlen := rawGrid_length dates data
  rw [hc] at hlen
  exact unique_weeks_ne_nil h (List.length_eq_zero.mp hlen.symm)

lemma zip_get_eq {α : Type} (dates : List Date) (data : List α) (k : Nat)
    (h1 : k < ((dates.map (cellCoord dates)).zip data).length) (h2 : k < dates.length)
    (h3 : k < data.length) :
    ((dates.map (cellCoord dates)).zip data).get ⟨k, h1⟩ =
      (cellCoord dates (dates.get ⟨k, h2⟩), data.get ⟨k, h3⟩) := by
  rw [List.get_eq_getElem, List.get_eq_getElem, List.get_eq_getElem, List.getElem_zip,
    List.getElem_map]

lemma zip_coords_length {α : Type} (dates : List Date) (data : List α)
    (hlen : data.length = dates.length) :
    ((dates.map (cellCoord dates)).zip data).length = dates.length := by
  rw [List.length_zip, List.length_map, hlen]
  exact Nat.min_self _

/-- The value at the cell of the date at index `k`, when no later input
date is scattered to the same cell: the `k`-th data value. -/
lemma rawGrid_cell_at {α : Type} (dates : List Date) (data : List α)
    (hlen : data.length = dates.length) (k : Nat) (hk : k < dates.length)
    (hcl : ∀ k', (hk' : k' < dates.length) → k < k' →
      cellCoord dates (dates.get ⟨k', hk'⟩) ≠ cellCoord dates (dates.get ⟨k, hk⟩)) :
    getCell (rawGrid dates data) (weekCoord dates (dates.get ⟨k, hk⟩))
      (dayCoord (dates.get ⟨k, hk⟩)) = data[k]? := by
  have hd : k < data.length := by omega
  have hps : k < ((dates.map (cellCoord dates)).zip data).length := by
    rw [zip_coords_length dates data hlen]
    exact hk
  rw [getCell_rawGrid]
  have hcell : lastWrite ((dates.map (cellCoord dates)).zip data)
      (cellCoord dates (dates.get ⟨k, hk⟩)) =
      some (((dates.map (cellCoord dates)).zip data).get ⟨k, hps⟩).2 := by
    apply lastWrite_eq_some _ _ k hps
    · rw [zip_get_eq dates data k hps hk hd]
    · intro k' hk' hgt
      have hk'd : k' < dates.length := by
        rw [zip_coords_length dates data hlen] at hk'
        exact hk'
      have hk'data : k' < data.length := by omega
      rw [zip_get_eq dates data k' hk' hk'd hk'data]
      exact hcl k' hk'd hgt
  have : cellCoord dates (dates.get ⟨k, hk⟩) =
      (weekCoord dates (dates.get ⟨k, hk⟩), dayCoord (dates.get ⟨k, hk⟩)) := rfl
  rw [← this, hcell, zip_get_eq dates data k hps hk hd]
  rw [List.getElem?_eq_getElem hd]
  rfl

/-! ### C1: each date's value lands at (week row, weekday − 1) -/

/-- C1: for a non-empty list of (valid, pairwise-distinct) dates with a
parallel list of values, `date_grid` puts each date's paired value at the
cell whose row is the index of the date's (ISO year, ISO week) pair in
the ascending sorted list (`pairLE`, no duplicates, exactly the input's
week pairs) of distinct week pairs, and whose column is the date's ISO
weekday minus 1 (so ISO weekday 1–7 gives column 0–6). -/
theorem date_grid_puts_each_value (dates : List Date) (data : List Int)
    (hne : dates ≠ []) (hval : ∀ d ∈ dates, d.isValid) (hnd : dates.Nodup)
    (hlen : data.length = dates.length) :
    ∃ g, date_grid dates data false = some g ∧
      List.Sorted pairLE (unique_weeks dates) ∧
      (unique_weeks dates).Nodup ∧
      (∀ wk, wk ∈ unique_weeks dates ↔ wk ∈ dates.map weekKey) ∧
      (∀ d ∈ dates, dayCoord d = ((d.isocalendar.2.2 - 1).toNat : Nat) ∧
        d.isocalendar.2.2 - 1 ∈ Finset.Icc (0 : Int) 6) ∧
      ∀ k, (hk : k < dates.length) →
        getCell g (weekCoord dates (dates.get ⟨k, hk⟩))
          (dayCoord (dates.get ⟨k, hk⟩)) = data[k]? := by
  refine ⟨rawGrid dates data, ?_, ?_, ?_, ?_, ?_, ?_⟩
  · rw [date_grid_eq_some dates data false hne]
    rfl
  · exact sortedDistinct_sorted _
  · exact sortedDistinct_nodup _
  · intro wk
    exact mem_sortedDistinct _ wk
  · intro d hd
    have := isoWeekday_range d
    refine ⟨rfl, ?_⟩
    rw [Finset.mem_Icc]
    omega
  · intro k hk
    apply rawGrid_cell_at dates data hlen k hk
    intro k' hk' hgt hceq
    have heq : dates.get ⟨k', hk'⟩ = dates.get ⟨k, hk⟩ :=
      cellCoord_inj (List.get_mem _ _ _) (List.get_mem _ _ _)
        (hval _ (List.get_mem _ _ _)) (hval _ (List.get_mem _ _ _)) hceq
    have := (List.Nodup.get_inj_iff hnd).mp heq
    simp only [Fin.mk.injEq] at this
    omega

/-- C1 witness: the specification's own example, `2021-01-01 ↦ 5` and
`2021-01-08 ↦ 10` (two distinct ISO weeks, both Fridays). -/
theorem date_grid_puts_each_value_witness :
    ∃ g, date_grid [⟨2021, 1, 1⟩, ⟨2021, 1, 8⟩] [5, 10] false = some g ∧
      List.Sorted pairLE (unique_weeks [⟨2021, 1, 1⟩, ⟨2021, 1, 8⟩]) ∧
      (unique_weeks [⟨2021, 1, 1⟩, ⟨2021, 1, 8⟩]).Nodup ∧
      (∀ wk, wk ∈ unique_weeks [⟨2021, 1, 1⟩, ⟨2021, 1, 8⟩] ↔
        wk ∈ [⟨2021, 1, 1⟩, ⟨2021, 1, 8⟩].map weekKey) ∧
      (∀ d ∈ [⟨2021, 1, 1⟩, ⟨2021, 1, 8⟩], dayCoord d = ((d.isocalendar.2.2 - 1).toNat : Nat) ∧
        d.isocalendar.2.2 - 1 ∈ Finset.Icc (0 : Int) 6) ∧
      ∀ k, (hk : k < ([⟨2021, 1, 1⟩, ⟨2021, 1, 8⟩] : List Date).length) →
        getCell g (weekCoord [⟨2021, 1, 1⟩, ⟨2021, 1, 8⟩]
            (([⟨2021, 1, 1⟩, ⟨2021, 1, 8⟩] : List Date).get ⟨k, hk⟩))
          (dayCoord (([⟨2021, 1, 1⟩, ⟨2021, 1, 8⟩] : List Date).get ⟨k, hk⟩)) =
          ([5, 10] : List Int)[k]? :=
  date_grid_puts_each_value [⟨2021, 1, 1⟩, ⟨2021, 1, 8⟩] [5, 10]
    (by decide) (by decide) (by decide) (by decide)

/-! ### C2: grid shape -/

/-- C2: for a non-empty input date list the unflipped grid has one row
per distinct (ISO year, ISO week) pair and exactly 7 columns; the flipped
grid is the transposed shape (7 rows, one column per distinct week pair). -/
theorem date_grid_shape {α : Type} (dates : List Date) (data : List α) (hne : dates ≠ []) :
    (∃ g, date_grid dates data false = some g ∧
      g.length = nDistinctWeeks dates ∧ ∀ r ∈ g, r.length = 7) ∧
    (∃ g, date_grid dates data true = some g ∧
      g.length = 7 ∧ ∀ r ∈ g, r.length = nDistinctWeeks dates) := by
  constructor
  · refine ⟨rawGrid dates data, ?_, ?_, rawGrid_rows dates data⟩
    · rw [date_grid_eq_some dates data false hne]
      rfl
    · rw [rawGrid_length, unique_weeks_length]
  · refine ⟨gridT (rawGrid dates data), ?_, ?_, ?_⟩
    · rw [date_grid_eq_some dates data true hne]
      rfl
    · exact gridT_length _ 7 (rawGrid_ne_nil dates data hne) (rawGrid_rows dates data)
    · intro r hr
      rw [gridT_rows _ r hr, rawGrid_length, unique_weeks_length]

/-- C2 witness: three dates spanning two distinct ISO weeks. -/
theorem date_grid_shape_witness :
    (∃ g, date_grid [⟨2021, 1, 1⟩, ⟨2021, 1, 2⟩, ⟨2021, 1, 8⟩] ([3, 1, 4] : List Int) false =
        some g ∧
      g.length = nDistinctWeeks [⟨2021, 1, 1⟩, ⟨2021, 1, 2⟩, ⟨2021, 1, 8⟩] ∧
      ∀ r ∈ g, r.length = 7) ∧
    (∃ g, date_grid [⟨2021, 1, 1⟩, ⟨2021, 1, 2⟩, ⟨2021, 1, 8⟩] ([3, 1, 4] : List Int) true =
        some g ∧
      g.length = 7 ∧
      ∀ r ∈ g, r.length = nDistinctWeeks [⟨2021, 1, 1⟩, ⟨2021, 1, 2⟩, ⟨2021, 1, 8⟩]) :=
  date_grid_shape [⟨2021, 1, 1⟩, ⟨2021, 1, 2⟩, ⟨2021, 1, 8⟩] [3, 1, 4] (by decide)

/-! ### C3: the flip flag is exactly a transpose -/

/-- C3: for every input (including the empty list, where both calls
fail), building with `flip=True` gives the transpose of the `flip=False`
grid, and transposing the `flip=True` grid gives back the `flip=False`
grid. -/
theorem date_grid_flip_is_transpose {α : Type} (dates : List Date) (data : List α) :
    date_grid dates data true = (date_grid dates data false).map gridT ∧
    date_grid dates data false = (date_grid dates data true).map gridT := by
  cases dates with
  | nil => exact ⟨rfl, rfl⟩
  | cons d ds =>
    constructor
    · rfl
    · show some (rawGrid (d :: ds) data) =
        some (gridT (gridT (rawGrid (d :: ds) data)))
      rw [gridT_gridT (rawGrid (d :: ds) data)
        (rawGrid_ne_nil _ _ (by simp)) (rawGrid_rows _ _)]

/-! ### C5: rows separate exactly the (ISO year, ISO week) pairs -/

/-- C5: two input dates are placed in the same grid row exactly when they
share the (ISO year, ISO week) pair — so equal week numbers in different
ISO years land in different rows, and a shared pair (e.g. across a year
boundary) lands in one row. -/
theorem same_row_iff_same_week_pair (dates : List Date) (a b : Date)
    (ha : a ∈ dates) (hb : b ∈ dates) :
    weekCoord dates a = weekCoord dates b ↔ weekKey a = weekKey b := by
  constructor
  · exact weekCoord_inj ha hb
  · intro h
    unfold weekCoord
    rw [h]

/-- C5 witness: 2018-12-31 and 2019-01-01 share ISO week (2019, 1) and
the same row; 2020-01-01 has a different ISO week and a different row. -/
theorem same_row_iff_same_week_pair_witness :
    ((weekCoord [⟨2018, 12, 31⟩, ⟨2019, 1, 1⟩, ⟨2020, 1, 1⟩] ⟨2018, 12, 31⟩ =
        weekCoord [⟨2018, 12, 31⟩, ⟨2019, 1, 1⟩, ⟨2020, 1, 1⟩] ⟨2019, 1, 1⟩) ↔
      weekKey ⟨2018, 12, 31⟩ = weekKey ⟨2019, 1, 1⟩) ∧
    weekKey ⟨2018, 12, 31⟩ = weekKey ⟨2019, 1, 1⟩ ∧
    weekCoord [⟨2018, 12, 31⟩, ⟨2019, 1, 1⟩, ⟨2020, 1, 1⟩] ⟨2018, 12, 31⟩ =
      weekCoord [⟨2018, 12, 31⟩, ⟨2019, 1, 1⟩, ⟨2020, 1, 1⟩] ⟨2019, 1, 1⟩ ∧
    weekKey ⟨2018, 12, 31⟩ ≠ weekKey ⟨2020, 1, 1⟩ ∧
    weekCoord [⟨2018, 12, 31⟩, ⟨2019, 1, 1⟩, ⟨2020, 1, 1⟩] ⟨2018, 12, 31⟩ ≠
      weekCoord [⟨2018, 12, 31⟩, ⟨2019, 1, 1⟩, ⟨2020, 1, 1⟩] ⟨2020, 1, 1⟩ :=
  ⟨same_row_iff_same_week_pair [⟨2018, 12, 31⟩, ⟨2019, 1, 1⟩, ⟨2020, 1, 1⟩] _ _
      (by decide) (by decide),
    by decide, by decide, by decide, by decide⟩

/-! ### C7: unmapped cells hold the missing marker -/

/-- C7: every grid cell no input date is scattered to holds the missing
marker `none` (NaN for the default `float64` dtype, the unset `None` for
the `object` dtype — both modelled by `none`), in either orientation. -/
theorem unmapped_cells_hold_missing_marker {α : Type} (dates : List Date) (data : List α)
    (flip : Bool) (g : Grid α) (hg : date_grid dates data flip = some g) (i j : Nat)
    (hnm : ∀ d ∈ dates, cellCoord dates d ≠ if flip then (j, i) else (i, j)) :
    getCell g i j = none := by
  cases dates with
  | nil => simp [date_grid] at hg
  | cons d0 ds =>
    rw [date_grid_eq_some _ data flip (by simp)] at hg
    have hnone : ∀ c : Nat × Nat, (∀ d ∈ d0 :: ds, cellCoord (d0 :: ds) d ≠ c) →
        getCell (rawGrid (d0 :: ds) data) c.1 c.2 = none := by
      intro c hc
      rw [getCell_rawGrid]
      apply lastWrite_eq_none
      intro p hp
      have hp1 : p.1 ∈ (d0 :: ds).map (cellCoord (d0 :: ds)) := (List.of_mem_zip hp).1
      obtain ⟨d, hd, hdc⟩ := List.mem_map.mp hp1
      rw [← hdc]
      exact hc d hd
    cases flip with
    | false =>
      injection hg with hg'
      have hg2 : rawGrid (d0 :: ds) data = g := hg'
      rw [← hg2]
      exact hnone (i, j) (fun d hd => hnm d hd)
    | true =>
      injection hg with hg'
      have hg2 : gridT (rawGrid (d0 :: ds) data) = g := hg'
      rw [← hg2]
      rw [getCell_gridT (rawGrid (d0 :: ds) data) 7 (rawGrid_ne_nil _ _ (by simp))
        (rawGrid_rows _ _) j i]
      exact hnone (j, i) (fun d hd => hnm d hd)

/-- C7 witness: with `2021-01-01 ↦ 5` and `2021-01-08 ↦ 10` the cell
(0, 0) (Monday of the first week) has no date mapped to it and holds the
missing marker. -/
theorem unmapped_cells_hold_missing_marker_witness :
    getCell [[none, none, none, none, some (5 : Int), none, none],
      [none, none, none, none, some 10, none, none]] 0 0 = none :=
  unmapped_cells_hold_missing_marker [⟨2021, 1, 1⟩, ⟨2021, 1, 8⟩] [5, 10] false
    [[none, none, none, none, some 5, none, none],
      [none, none, none, none, some 10, none, none]]
    (by decide) 0 0 (by decide)

/-! ### C9: duplicate dates, last write wins -/

/-- C9: `date_grid` does not deduplicate dates; the cell of a date holds
the value paired with its last occurrence in the input list. -/
theorem duplicate_dates_last_write_wins {α : Type} (dates : List Date) (data : List α)
    (hval : ∀ d ∈ dates, d.isValid) (hlen : data.length = dates.length)
    (g : Grid α) (hg : date_grid dates data false = some g)
    (k : Nat) (hk : k < dates.length)
    (hlast : ∀ k', (hk' : k' < dates.length) → k < k' →
      dates.get ⟨k', hk'⟩ ≠ dates.get ⟨k, hk⟩) :
    getCell g (weekCoord dates (dates.get ⟨k, hk⟩)) (dayCoord (dates.get ⟨k, hk⟩)) =
      data[k]? := by
  cases dates with
  | nil => simp at hk
  | cons d0 ds =>
    rw [date_grid_eq_some _ data false (by simp)] at hg
    injection hg with hg'
    have hg2 : rawGrid (d0 :: ds) data = g := hg'
    rw [← hg2]
    apply rawGrid_cell_at _ data hlen k hk
    intro k' hk' hgt hceq
    refine hlast k' hk' hgt ?_
    exact cellCoord_inj (List.get_mem _ _ _) (List.get_mem _ _ _)
      (hval _ (List.get_mem _ _ _)) (hval _ (List.get_mem _ _ _)) hceq

/-- C9 witness: the date 2021-03-05 appears twice with values 1 then 2;
its cell holds 2, the value of the last occurrence. -/
theorem duplicate_dates_last_write_wins_witness :
    getCell [[none, none, none, none, some (2 : Int), none, none]]
      (weekCoord [⟨2021, 3, 5⟩, ⟨2021, 3, 5⟩]
        (([⟨2021, 3, 5⟩, ⟨2021, 3, 5⟩] : List Date).get ⟨1, by decide⟩))
      (dayCoord (([⟨2021, 3, 5⟩, ⟨2021, 3, 5⟩] : List Date).get ⟨1, by decide⟩)) =
      ([1, 2] : List Int)[1]? :=
  duplicate_dates_last_write_wins [⟨2021, 3, 5⟩, ⟨2021, 3, 5⟩] [1, 2]
    (by decide) (by decide)
    [[none, none, none, none, some 2, none, none]] (by decide)
    1 (by decide) (by decide)

/-! ### C4: month labels centred on the min/max matching week coordinate -/

lemma mem_weeksAxisCoords {α : Type} [DecidableEq α] (g : Grid α) (v : α) (flip : Bool)
    (w : Nat) :
    w ∈ weeksAxisCoords g v flip ↔
      ∃ i j, getCell g i j = some v ∧ (if flip then j else i) = w := by
  unfold weeksAxisCoords
  rw [List.mem_map]
  constructor
  · rintro ⟨c, hc, hw⟩
    exact ⟨c.1, c.2, (mem_matchCoords g v c).mp hc, hw⟩
  · rintro ⟨i, j, hcell, hw⟩
    exact ⟨(i, j), (mem_matchCoords g v (i, j)).mpr hcell, hw⟩

lemma monthKey_cell_agree {dates : List Date} (hval : ∀ d ∈ dates, d.isValid) :
    ∀ a b, a ∈ dates → b ∈ dates →
      cellCoord dates a = cellCoord dates b → monthKey a = monthKey b := by
  intro a b ha hb hc
  rw [cellCoord_inj ha hb (hval a ha) (hval b hb) hc]

/-- C4: for each distinct (year, month) group among the input dates, the
month-label position along the weeks axis (rows unflipped, columns
flipped) is (min + max) / 2, where max and min are the greatest and least
weeks-axis coordinates of grid cells holding that group — regardless of
which coordinates in between hold data. -/
theorem add_month_label_centers (dates : List Date) (flip : Bool)
    (hne : dates ≠ []) (hval : ∀ d ∈ dates, d.isValid) :
    ∀ mk ∈ unique_month_years dates, ∃ g M m,
      month_year_grid dates flip = some g ∧
      IsGreatest {w : ℕ | ∃ i j, getCell g i j = some mk ∧ (if flip then j else i) = w} M ∧
      IsLeast {w : ℕ | ∃ i j, getCell g i j = some mk ∧ (if flip then j else i) = w} m ∧
      month_label_loc dates flip mk = some (((M : ℚ) + m) / 2) := by
  intro mk hmk
  obtain ⟨d, hd, hdk⟩ := List.mem_map.mp ((mem_sortedDistinct _ mk).mp hmk)
  have hfd := monthKey_cell_agree hval
  have hcellraw : getCell (rawGrid dates (dates.map monthKey))
      (weekCoord dates d) (dayCoord d) = some mk := by
    rw [rawGrid_cell_map dates monthKey hd hfd, hdk]
  cases flip with
  | false =>
    have hgrid : month_year_grid dates false =
        some (rawGrid dates (dates.map monthKey)) := by
      unfold month_year_grid
      rw [date_grid_eq_some dates _ false hne]
      rfl
    have hw0 : weekCoord dates d ∈
        weeksAxisCoords (rawGrid dates (dates.map monthKey)) mk false :=
      (mem_weeksAxisCoords _ mk false _).mpr
        ⟨weekCoord dates d, dayCoord d, hcellraw, rfl⟩
    obtain ⟨M, hM⟩ := natMax?_isSome (List.ne_nil_of_mem hw0)
    obtain ⟨m, hm⟩ := natMin?_isSome (List.ne_nil_of_mem hw0)
    have hMs := natMax?_spec hM
    have hms := natMin?_spec hm
    refine ⟨rawGrid dates (dates.map monthKey), M, m, hgrid,
      ⟨(mem_weeksAxisCoords _ mk false M).mp hMs.1,
        fun x hx => hMs.2 x ((mem_weeksAxisCoords _ mk false x).mpr hx)⟩,
      ⟨(mem_weeksAxisCoords _ mk false m).mp hms.1,
        fun x hx => hms.2 x ((mem_weeksAxisCoords _ mk false x).mpr hx)⟩, ?_⟩
    unfold month_label_loc
    rw [hgrid]
    dsimp only
    rw [hM, hm]
  | true =>
    have hgrid : month_year_grid dates true =
        some (gridT (rawGrid dates (dates.map monthKey))) := by
      unfold month_year_grid
      rw [date_grid_eq_some dates _ true hne]
      rfl
    have hcellT : getCell (gridT (rawGrid dates (dates.map monthKey)))
        (dayCoord d) (weekCoord dates d) = some mk := by
      rw [getCell_gridT (rawGrid dates (dates.map monthKey)) 7
        (rawGrid_ne_nil _ _ hne) (rawGrid_rows _ _) (weekCoord dates d) (dayCoord d)]
      exact hcellraw
    have hw0 : weekCoord dates d ∈
        weeksAxisCoords (gridT (rawGrid dates (dates.map monthKey))) mk true :=
      (mem_weeksAxisCoords _ mk true _).mpr
        ⟨dayCoord d, weekCoord dates d, hcellT, rfl⟩
    obtain ⟨M, hM⟩ := natMax?_isSome (List.ne_nil_of_mem hw0)
    obtain ⟨m, hm⟩ := natMin?_isSome (List.ne_nil_of_mem hw0)
    have hMs := natMax?_spec hM
    have hms := natMin?_spec hm
    refine ⟨gridT (rawGrid dates (dates.map monthKey)), M, m, hgrid,
      ⟨(mem_weeksAxisCoords _ mk true M).mp hMs.1,
        fun x hx => hMs.2 x ((mem_weeksAxisCoords _ mk true x).mpr hx)⟩,
      ⟨(mem_weeksAxisCoords _ mk true m).mp hms.1,
        fun x hx => hms.2 x ((mem_weeksAxisCoords _ mk true x).mpr hx)⟩, ?_⟩
    unfold month_label_loc
    rw [hgrid]
    dsimp only
    rw [hM, hm]

/-- Evaluation helper: the unflipped month-label position from computed
week-axis max and min. -/
lemma month_label_loc_eval (dates : List Date) (hne : dates ≠ []) (k : Int × Int)
    (M m : Nat)
    (hM : natMax? (weeksAxisCoords (rawGrid dates (dates.map monthKey)) k false) = some M)
    (hm : natMin? (weeksAxisCoords (rawGrid dates (dates.map monthKey)) k false) = some m) :
    month_label_loc dates false k = some (((M : ℚ) + m) / 2) := by
  have hgrid : month_year_grid dates false = some (rawGrid dates (dates.map monthKey)) := by
    unfold month_year_grid
    rw [date_grid_eq_some dates _ false hne]
    rfl
  unfold month_label_loc
  rw [hgrid]
  dsimp only
  rw [hM, hm]

/-- Evaluation helper: the unflipped year-label position from computed
week-axis max and min. -/
lemma year_label_loc_eval (dates : List Date) (hne : dates ≠ []) (y : Int)
    (M m : Nat)
    (hM : natMax? (weeksAxisCoords (rawGrid dates (dates.map Date.year)) y false) = some M)
    (hm : natMin? (weeksAxisCoords (rawGrid dates (dates.map Date.year)) y false) = some m) :
    year_label_loc dates false y = some (((M : ℚ) + 1 + m) / 2) := by
  have hgrid : year_grid dates false = some (rawGrid dates (dates.map Date.year)) := by
    unfold year_grid
    rw [date_grid_eq_some dates _ false hne]
    rfl
  unfold year_label_loc
  rw [hgrid]
  dsimp only
  rw [hM, hm]

/-- C4 witness: seven dates where February 2021 occupies week rows 3, 4
and 5 of the grid with no date in ISO week 6 of the span (rows 3–5 are
weeks 5, 7 and 8); the computed label position is (3 + 5)/2 = 4. -/
theorem add_month_label_centers_witness :
    (∀ mk ∈ unique_month_years [⟨2021, 1, 4⟩, ⟨2021, 1, 11⟩, ⟨2021, 1, 18⟩, ⟨2021, 2, 1⟩,
        ⟨2021, 2, 15⟩, ⟨2021, 2, 22⟩, ⟨2021, 3, 1⟩], ∃ g M m,
      month_year_grid [⟨2021, 1, 4⟩, ⟨2021, 1, 11⟩, ⟨2021, 1, 18⟩, ⟨2021, 2, 1⟩,
        ⟨2021, 2, 15⟩, ⟨2021, 2, 22⟩, ⟨2021, 3, 1⟩] false = some g ∧
      IsGreatest {w : ℕ | ∃ i j, getCell g i j = some mk ∧ (if false then j else i) = w} M ∧
      IsLeast {w : ℕ | ∃ i j, getCell g i j = some mk ∧ (if false then j else i) = w} m ∧
      month_label_loc [⟨2021, 1, 4⟩, ⟨2021, 1, 11⟩, ⟨2021, 1, 18⟩, ⟨2021, 2, 1⟩,
        ⟨2021, 2, 15⟩, ⟨2021, 2, 22⟩, ⟨2021, 3, 1⟩] false mk = some (((M : ℚ) + m) / 2)) ∧
    month_label_loc [⟨2021, 1, 4⟩, ⟨2021, 1, 11⟩, ⟨2021, 1, 18⟩, ⟨2021, 2, 1⟩,
      ⟨2021, 2, 15⟩, ⟨2021, 2, 22⟩, ⟨2021, 3, 1⟩] false (2021, 2) = some 4 :=
  ⟨add_month_label_centers [⟨2021, 1, 4⟩, ⟨2021, 1, 11⟩, ⟨2021, 1, 18⟩, ⟨2021, 2, 1⟩,
      ⟨2021, 2, 15⟩, ⟨2021, 2, 22⟩, ⟨2021, 3, 1⟩] false (by decide) (by decide),
    by
      rw [month_label_loc_eval [⟨2021, 1, 4⟩, ⟨2021, 1, 11⟩, ⟨2021, 1, 18⟩, ⟨2021, 2, 1⟩,
        ⟨2021, 2, 15⟩, ⟨2021, 2, 22⟩, ⟨2021, 3, 1⟩] (by decide) (2021, 2) 5 3
        (by decide) (by decide)]
      norm_num⟩

/-! ### C10: year labels — the code adds 1 before halving -/

lemma mem_unique_years (dates : List Date) (y : Int) :
    y ∈ unique_years dates ↔ y ∈ dates.map Date.year := by
  unfold unique_years
  rw [(List.perm_insertionSort _ _).mem_iff, List.mem_dedup]

lemma year_cell_agree {dates : List Date} (hval : ∀ d ∈ dates, d.isValid) :
    ∀ a b, a ∈ dates → b ∈ dates →
      cellCoord dates a = cellCoord dates b → Date.year a = Date.year b := by
  intro a b ha hb hc
  rw [cellCoord_inj ha hb (hval a ha) (hval b hb) hc]

/-- C10 counterexample: for the single date 2021-01-01 (unflipped) the
matching weeks-axis coordinates are exactly {0}, so the month-label rule
(min + max)/2 demands position 0, but `add_year_label` computes
(0 + 1 + 0)/2 = 1/2. -/
theorem add_year_label_not_month_rule_cex :
    year_grid [⟨2021, 1, 1⟩] false =
      some [[none, none, none, none, some 2021, none, none]] ∧
    IsGreatest {w : ℕ | ∃ i j,
      getCell [[none, none, none, none, some (2021 : Int), none, none]] i j =
        some (2021 : Int) ∧ (if false then j else i) = w} 0 ∧
    IsLeast {w : ℕ | ∃ i j,
      getCell [[none, none, none, none, some (2021 : Int), none, none]] i j =
        some (2021 : Int) ∧ (if false then j else i) = w} 0 ∧
    year_label_loc [⟨2021, 1, 1⟩] false 2021 = some (1 / 2) ∧
    (1 / 2 : ℚ) ≠ ((0 : ℚ) + 0) / 2 := by
  refine ⟨by decide, ⟨⟨0, 4, by decide, rfl⟩, ?_⟩, ⟨⟨0, 4, by decide, rfl⟩,
    fun w _ => Nat.zero_le w⟩,
    by
      rw [year_label_loc_eval [⟨2021, 1, 1⟩] (by decide) 2021 0 0 (by decide) (by decide)]
      norm_num,
    by norm_num⟩
  rintro w ⟨i, j, hc, hw⟩
  have hb := getCell_some_bounds hc
  have hi : i < 1 := by simpa using hb.1
  simp only [if_neg Bool.false_ne_true] at hw
  omega

/-- C10 as amended: the year-label position along the weeks axis is
(min + max + 1)/2 — the month rule shifted by one half — with min and max
the least and greatest weeks-axis coordinates of cells holding the year. -/
theorem add_year_label_offset_centers (dates : List Date) (flip : Bool)
    (hne : dates ≠ []) (hval : ∀ d ∈ dates, d.isValid) :
    ∀ y ∈ unique_years dates, ∃ g M m,
      year_grid dates flip = some g ∧
      IsGreatest {w : ℕ | ∃ i j, getCell g i j = some y ∧ (if flip then j else i) = w} M ∧
      IsLeast {w : ℕ | ∃ i j, getCell g i j = some y ∧ (if flip then j else i) = w} m ∧
      year_label_loc dates flip y = some (((M : ℚ) + 1 + m) / 2) := by
  intro y hy
  obtain ⟨d, hd, hdk⟩ := List.mem_map.mp ((mem_unique_years dates y).mp hy)
  have hfd := year_cell_agree hval
  have hcellraw : getCell (rawGrid dates (dates.map Date.year))
      (weekCoord dates d) (dayCoord d) = some y := by
    rw [rawGrid_cell_map dates Date.year hd hfd, hdk]
  cases flip with
  | false =>
    have hgrid : year_grid dates false = some (rawGrid dates (dates.map Date.year)) := by
      unfold year_grid
      rw [date_grid_eq_some dates _ false hne]
      rfl
    have hw0 : weekCoord dates d ∈
        weeksAxisCoords (rawGrid dates (dates.map Date.year)) y false :=
      (mem_weeksAxisCoords _ y false _).mpr
        ⟨weekCoord dates d, dayCoord d, hcellraw, rfl⟩
    obtain ⟨M, hM⟩ := natMax?_isSome (List.ne_nil_of_mem hw0)
    obtain ⟨m, hm⟩ := natMin?_isSome (List.ne_nil_of_mem hw0)
    have hMs := natMax?_spec hM
    have hms := natMin?_spec hm
    refine ⟨rawGrid dates (dates.map Date.year), M, m, hgrid,
      ⟨(mem_weeksAxisCoords _ y false M).mp hMs.1,
        fun x hx => hMs.2 x ((mem_weeksAxisCoords _ y false x).mpr hx)⟩,
      ⟨(mem_weeksAxisCoords _ y false m).mp hms.1,
        fun x hx => hms.2 x ((mem_weeksAxisCoords _ y false x).mpr hx)⟩, ?_⟩
    unfold year_label_loc
    rw [hgrid]
    dsimp only
    rw [hM, hm]
  | true =>
    have hgrid : year_grid dates true =
        some (gridT (rawGrid dates (dates.map Date.year))) := by
      unfold year_grid
      rw [date_grid_eq_some dates _ true hne]
      rfl
    have hcellT : getCell (gridT (rawGrid dates (dates.map Date.year)))
        (dayCoord d) (weekCoord dates d) = some y := by
      rw [getCell_gridT (rawGrid dates (dates.map Date.year)) 7
        (rawGrid_ne_nil _ _ hne) (rawGrid_rows _ _) (weekCoord dates d) (dayCoord d)]
      exact hcellraw
    have hw0 : weekCoord dates d ∈
        weeksAxisCoords (gridT (rawGrid dates (dates.map Date.year))) y true :=
      (mem_weeksAxisCoords _ y true _).mpr
        ⟨dayCoord d, weekCoord dates d, hcellT, rfl⟩
    obtain ⟨M, hM⟩ := natMax?_isSome (List.ne_nil_of_mem hw0)
    obtain ⟨m, hm⟩ := natMin?_isSome (List.ne_nil_of_mem hw0)
    have hMs := natMax?_spec hM
    have hms := natMin?_spec hm
    refine ⟨gridT (rawGrid dates (dates.map Date.year)), M, m, hgrid,
      ⟨(mem_weeksAxisCoords _ y true M).mp hMs.1,
        fun x hx => hMs.2 x ((mem_weeksAxisCoords _ y true x).mpr hx)⟩,
      ⟨(mem_weeksAxisCoords _ y true m).mp hms.1,
        fun x hx => hms.2 x ((mem_weeksAxisCoords _ y true x).mpr hx)⟩, ?_⟩
    unfold year_label_loc
    rw [hgrid]
    dsimp only
    rw [hM, hm]

/-- C10 witness: two Fridays in 2021 spanning week rows 0 and 1; the
year-label position is (1 + 1 + 0)/2 = 1. -/
theorem add_year_label_offset_centers_witness :
    (∀ y ∈ unique_years [⟨2021, 1, 1⟩, ⟨2021, 1, 8⟩], ∃ g M m,
      year_grid [⟨2021, 1, 1⟩, ⟨2021, 1, 8⟩] false = some g ∧
      IsGreatest {w : ℕ | ∃ i j, getCell g i j = some y ∧ (if false then j else i) = w} M ∧
      IsLeast {w : ℕ | ∃ i j, getCell g i j = some y ∧ (if false then j else i) = w} m ∧
      year_label_loc [⟨2021, 1, 1⟩, ⟨2021, 1, 8⟩] false y =
        some (((M : ℚ) + 1 + m) / 2)) ∧
    year_label_loc [⟨2021, 1, 1⟩, ⟨2021, 1, 8⟩] false 2021 = some 1 :=
  ⟨add_year_label_offset_centers [⟨2021, 1, 1⟩, ⟨2021, 1, 8⟩] false (by decide) (by decide),
    by
      rw [year_label_loc_eval [⟨2021, 1, 1⟩, ⟨2021, 1, 8⟩] (by decide) 2021 1 0
        (by decide) (by decide)]
      norm_num⟩

/-! ### C6: `add_date_label` raises instead of skipping missing cells -/

lemma headD_length {α : Type} (g : Grid α) (w : Nat) (hg : g ≠ [])
    (hw : ∀ r ∈ g, r.length = w) : (g.headD []).length = w := by
  cases g with
  | nil => exact absurd rfl hg
  | cons r rs => exact hw r (List.mem_cons_self _ _)

/-- C6 (the code at the failing inputs): for every non-empty date list,
`add_date_label` raises `TypeError` — the loop body subscripts the
function `date_grid` instead of the computed `day_grid`, and the
`except ValueError` handler does not catch `TypeError` — so no cell,
missing or not, is ever labelled and the error propagates to the caller. -/
theorem add_date_label_always_raises (dates : List Date) (flip : Bool) (hne : dates ≠ []) :
    add_date_label dates flip = Except.error "TypeError" := by
  unfold add_date_label
  dsimp only
  rw [date_grid_eq_some dates (dates.map Date.day) flip hne]
  dsimp only
  have hlen0 : (rawGrid dates (dates.map Date.day)).length ≠ 0 := by
    intro hc
    exact rawGrid_ne_nil dates (dates.map Date.day) hne (List.length_eq_zero.mp hc)
  cases flip with
  | false =>
    show (if (rawGrid dates (dates.map Date.day)).length *
        ((rawGrid dates (dates.map Date.day)).headD []).length = 0 then Except.ok ()
      else Except.error "TypeError") = Except.error "TypeError"
    rw [headD_length (rawGrid dates (dates.map Date.day)) 7
      (rawGrid_ne_nil _ _ hne) (rawGrid_rows _ _)]
    rw [if_neg (by omega)]
  | true =>
    show (if (gridT (rawGrid dates (dates.map Date.day))).length *
        ((gridT (rawGrid dates (dates.map Date.day))).headD []).length = 0 then Except.ok ()
      else Except.error "TypeError") = Except.error "TypeError"
    rw [gridT_length (rawGrid dates (dates.map Date.day)) 7
      (rawGrid_ne_nil _ _ hne) (rawGrid_rows _ _)]
    rw [headD_length (gridT (rawGrid dates (dates.map Date.day)))
      (rawGrid dates (dates.map Date.day)).length ?hne2 (gridT_rows _)]
    · rw [if_neg (by omega)]
    case hne2 =>
      intro hc
      have := gridT_length (rawGrid dates (dates.map Date.day)) 7
        (rawGrid_ne_nil _ _ hne) (rawGrid_rows _ _)
      rw [hc] at this
      simp at this

/-- C6 witness: the two-date example input; the call raises in both
orientations. -/
theorem add_date_label_always_raises_witness :
    add_date_label [⟨2021, 1, 1⟩, ⟨2021, 1, 8⟩] false = Except.error "TypeError" ∧
    add_date_label [⟨2021, 1, 1⟩, ⟨2021, 1, 8⟩] true = Except.error "TypeError" :=
  ⟨add_date_label_always_raises [⟨2021, 1, 1⟩, ⟨2021, 1, 8⟩] false (by decide),
    add_date_label_always_raises [⟨2021, 1, 1⟩, ⟨2021, 1, 8⟩] true (by decide)⟩

/-! ### C8: the empty input raises instead of returning an empty grid -/

/-- C8 counterexample: on the empty date list `date_grid` does not return
the empty (zero-row) grid — it raises (`iso_dates[:, :2]` on a 1-D empty
array is an `IndexError`), modelled by `none`. -/
theorem date_grid_empty_input_cex :
    date_grid ([] : List Date) ([] : List Int) false = none ∧
    date_grid ([] : List Date) ([] : List Int) false ≠ some [] :=
  ⟨rfl, by decide⟩

/-- C8 as amended: on an empty date list `date_grid` raises an
`IndexError` (the unguarded `iso_dates[:, :2]` of a 1-D empty array),
modelled by `none`, for every data list and orientation. -/
theorem date_grid_empty_input_raises {α : Type} (data : List α) (flip : Bool) :
    date_grid ([] : List Date) data flip = none := rfl
